import Mathlib

/-!
# Verification development for the avax_bridge Bitcoin HTLC components

Shallow embedding of the Bitcoin leg of the atomic-swap system:
the Taproot HTLC script construction (`primitives/src/htlc.rs` together
with the script builders whose shapes are fixed in
`orderbook/src/bitcoin_htlc.rs`), the wallet transaction builders
(`executor/src/wallet.rs`), the UTXO selection of the indexer client
(`primitives/src/indexer.rs`), the order-to-action resolver
(`executor/src/executor.rs`) and the chain watcher
(`watcher/src/watcher.rs`).

Effectful inputs (indexer responses, current block height, fetched
transactions) are passed as explicit arguments; fallible operations
return `Except`/`Option`; a Rust `unwrap`/`expect` panic is modelled as
a dedicated error value.  Byte strings are `List Nat` (each entry a
byte), machine words are `Nat` reduced mod `2^32` where the code relies
on wrapping.  SHA-256 is implemented concretely so that hash-dependent
behaviour is checked on real digests.
-/

namespace AvaxBridge

/-! ## Bytes and hex encoding (`hex` crate as used throughout the repo) -/

/-- Value of one hexadecimal digit, `none` for a non-hex character. -/
def hexDigitVal (c : Char) : Option Nat :=
  if '0' ≤ c ∧ c ≤ '9' then some (c.toNat - 48)
  else if 'a' ≤ c ∧ c ≤ 'f' then some (c.toNat - 87)
  else if 'A' ≤ c ∧ c ≤ 'F' then some (c.toNat - 55)
  else none

/-- Decode a list of hex characters two at a time; fails on odd length or
a non-hex character, like `hex::decode`. -/
def hexDecodeChars : List Char → Option (List Nat)
  | [] => some []
  | [_] => none
  | c1 :: c2 :: rest => do
      let hi ← hexDigitVal c1
      let lo ← hexDigitVal c2
      let tail ← hexDecodeChars rest
      pure ((16 * hi + lo) :: tail)

/-- `hex::decode` on a string. -/
def hexDecode (s : String) : Option (List Nat) :=
  hexDecodeChars s.data

/-- Lower-case hex digit for a value below 16. -/
def hexDigitChar (n : Nat) : Char :=
  if n < 10 then Char.ofNat (48 + n) else Char.ofNat (87 + n)

/-- `hex::encode`: two lower-case hex digits per byte. -/
def hexEncode (bs : List Nat) : String :=
  ⟨(bs.map (fun b => [hexDigitChar (b / 16 % 16), hexDigitChar (b % 16)])).flatten⟩

/-! ## SHA-256 (the `sha2::Sha256` digest used by the repo) -/

/-- Truncate to a 32-bit word. -/
def w32 (n : Nat) : Nat := n % 4294967296

/-- 32-bit right rotation. -/
def rotr (k x : Nat) : Nat := w32 ((x >>> k) ||| (x <<< (32 - k)))

/-- 32-bit complement. -/
def bnot32 (x : Nat) : Nat := x ^^^ 4294967295

def shaSmallSigma0 (x : Nat) : Nat := rotr 7 x ^^^ rotr 18 x ^^^ (x >>> 3)

def shaSmallSigma1 (x : Nat) : Nat := rotr 17 x ^^^ rotr 19 x ^^^ (x >>> 10)

def shaBigSigma0 (x : Nat) : Nat := rotr 2 x ^^^ rotr 13 x ^^^ rotr 22 x

def shaBigSigma1 (x : Nat) : Nat := rotr 6 x ^^^ rotr 11 x ^^^ rotr 25 x

def shaCh (e f g : Nat) : Nat := (e &&& f) ^^^ (bnot32 e &&& g)

def shaMaj (a b c : Nat) : Nat := (a &&& b) ^^^ (a &&& c) ^^^ (b &&& c)

/-- The 64 SHA-256 round constants (fractional cube roots of the first
64 primes), written in decimal. -/
def shaK : List Nat :=
  [1116352408, 1899447441, 3049323471, 3921009573,
   961987163, 1508970993, 2453635748, 2870763221,
   3624381080, 310598401, 607225278, 1426881987,
   1925078388, 2162078206, 2614888103, 3248222580,
   3835390401, 4022224774, 264347078, 604807628,
   770255983, 1249150122, 1555081692, 1996064986,
   2554220882, 2821834349, 2952996808, 3210313671,
   3336571891, 3584528711, 113926993, 338241895,
   666307205, 773529912, 1294757372, 1396182291,
   1695183700, 1986661051, 2177026350, 2456956037,
   2730485921, 2820302411, 3259730800, 3345764771,
   3516065817, 3600352804, 4094571909, 275423344,
   430227734, 506948616, 659060556, 883997877,
   958139571, 1322822218, 1537002063, 1747873779,
   1955562222, 2024104815, 2227730452, 2361852424,
   2428436474, 2756734187, 3204031479, 3329325298]

/-- The eight working words of the compression state. -/
structure ShaState where
  a : Nat
  b : Nat
  c : Nat
  d : Nat
  e : Nat
  f : Nat
  g : Nat
  h : Nat
deriving DecidableEq, Repr

/-- The SHA-256 initial state (fractional square roots of the first 8
primes), written in decimal. -/
def shaInit : ShaState :=
  ⟨1779033703, 3144134277, 1013904242, 2773480762,
   1359893119, 2600822924, 528734635, 1541459225⟩

/-- Pack bytes into big-endian 32-bit words, four at a time. -/
def wordsBE : List Nat → List Nat
  | b0 :: b1 :: b2 :: b3 :: rest =>
      ((b0 <<< 24) ||| (b1 <<< 16) ||| (b2 <<< 8) ||| b3) :: wordsBE rest
  | _ => []

/-- Big-endian bytes of one 32-bit word. -/
def wordBytesBE (w : Nat) : List Nat :=
  [w >>> 24 % 256, w >>> 16 % 256, w >>> 8 % 256, w % 256]

/-- Standard SHA-256 padding: one `0x80` byte, zeros to 56 mod 64, then the
bit length as a big-endian 64-bit integer. -/
def shaPad (bs : List Nat) : List Nat :=
  let len := bs.length
  let zeros := (119 - len % 64) % 64
  bs ++ [128] ++ List.replicate zeros 0 ++
    (List.range 8).map (fun i => (len * 8) >>> (8 * (7 - i)) % 256)

/-- Extend a message schedule by the given number of further words. -/
def shaExtend (ws : List Nat) : Nat → List Nat
  | 0 => ws
  | n + 1 =>
      let i := ws.length
      let wNew := w32 (shaSmallSigma1 (ws.getD (i - 2) 0) + ws.getD (i - 7) 0 +
                       shaSmallSigma0 (ws.getD (i - 15) 0) + ws.getD (i - 16) 0)
      shaExtend (ws ++ [wNew]) n

/-- One SHA-256 compression round. -/
def shaRound (st : ShaState) (kw : Nat × Nat) : ShaState :=
  let t1 := w32 (st.h + shaBigSigma1 st.e + shaCh st.e st.f st.g + kw.1 + kw.2)
  let t2 := w32 (shaBigSigma0 st.a + shaMaj st.a st.b st.c)
  ⟨w32 (t1 + t2), st.a, st.b, st.c, w32 (st.d + t1), st.e, st.f, st.g⟩

/-- Compress one 64-byte block into the running state. -/
def shaCompress (st : ShaState) (block : List Nat) : ShaState :=
  let ws := shaExtend (wordsBE block) 48
  let r := (shaK.zip ws).foldl shaRound st
  ⟨w32 (st.a + r.a), w32 (st.b + r.b), w32 (st.c + r.c), w32 (st.d + r.d),
   w32 (st.e + r.e), w32 (st.f + r.f), w32 (st.g + r.g), w32 (st.h + r.h)⟩

/-- Split into 64-byte blocks (structural accumulator so that the
function reduces inside the kernel; the padded input is always a
multiple of 64 bytes long). -/
def chunksAux (acc : List Nat) : List Nat → List (List Nat)
  | [] => if acc.isEmpty then [] else [acc]
  | b :: rest =>
      let acc' := acc ++ [b]
      if acc'.length = 64 then acc' :: chunksAux [] rest
      else chunksAux acc' rest

/-- Split into 64-byte blocks. -/
def chunks64 (l : List Nat) : List (List Nat) :=
  chunksAux [] l

/-- SHA-256 of a byte string, as its 32 digest bytes. -/
def sha256 (bs : List Nat) : List Nat :=
  let fin := (chunks64 (shaPad bs)).foldl shaCompress shaInit
  ([fin.a, fin.b, fin.c, fin.d, fin.e, fin.f, fin.g, fin.h].map wordBytesBE).flatten

/-! ## Spending-condition scripts

`primitives/src/htlc.rs` builds its three leaves via
`super::scripts::{redeem_leaf, refund_leaf, instant_refund_leaf}`; the
same builders appear verbatim in `orderbook/src/bitcoin_htlc.rs`
(`OP_SHA256 <hash> OP_EQUALVERIFY <key> OP_CHECKSIG`;
`<timelock> OP_CSV OP_DROP <key> OP_CHECKSIG`;
`<k1> OP_CHECKSIG <k2> OP_CHECKSIGADD 2 OP_NUMEQUAL`), matching §4.1 of
the spec.  A script is its sequence of pushed opcodes and data; the
byte-level opcode encoding is abstracted since only script identity is
ever compared (for Taproot leaf lookup). -/

/-- One element of a Bitcoin script as assembled by `script::Builder`. -/
inductive ScriptElem where
  | opSha256
  | opEqualVerify
  | opCheckSig
  | opCsv
  | opDrop
  | opCheckSigAdd
  | opNumEqual
  | pushBytes (bs : List Nat)
  | pushKey (key : String)
  | pushInt (n : Int)
deriving DecidableEq, Repr

/-- A script is the list of its elements. -/
abbrev Script := List ScriptElem

/-- `redeem_leaf(secret_hash, redeemer_pubkey)`:
`OP_SHA256 <secret_hash> OP_EQUALVERIFY <redeemer_pubkey> OP_CHECKSIG`. -/
def redeem_leaf (secret_hash : List Nat) (redeemer_pubkey : String) : Script :=
  [.opSha256, .pushBytes secret_hash, .opEqualVerify, .pushKey redeemer_pubkey, .opCheckSig]

/-- `refund_leaf(timelock, initiator_pubkey)`:
`<timelock> OP_CSV OP_DROP <initiator_pubkey> OP_CHECKSIG`. -/
def refund_leaf (timelock : Int) (initiator_pubkey : String) : Script :=
  [.pushInt timelock, .opCsv, .opDrop, .pushKey initiator_pubkey, .opCheckSig]

/-- `instant_refund_leaf(initiator_pubkey, redeemer_pubkey)`:
`<initiator> OP_CHECKSIG <redeemer> OP_CHECKSIGADD 2 OP_NUMEQUAL`. -/
def instant_refund_leaf (initiator_pubkey redeemer_pubkey : String) : Script :=
  [.pushKey initiator_pubkey, .opCheckSig,
   .pushKey redeemer_pubkey, .opCheckSigAdd, .pushInt 2, .opNumEqual]

/-! ## The Taproot HTLC (`primitives/src/htlc.rs`) -/

/-- `bitcoin::Network` as carried by `BitcoinHTLC`. -/
inductive Network where
  | bitcoin
  | testnet
  | testnet4
  | signet
  | regtest
deriving DecidableEq, Repr

/-- `BitcoinHTLC` (`htlc.rs` lines 35-41): pubkeys kept as the hex strings
they are constructed from, `secret_hash` already hex-decoded by `new`,
`timelock: i64`. -/
structure BitcoinHTLC where
  initiator_pubkey : String
  redeemer_pubkey : String
  secret_hash : List Nat
  timelock : Int
  network : Network
deriving DecidableEq, Repr

/-- The three leaves committed by `BitcoinHTLC::construct_taproot`
(weights 10 redeem / 5 refund / 1 instant-refund feed the Huffman tree;
only the resulting leaf set matters for control-block lookup).  Note the
tree commits `refund_leaf(timelock, initiator_pubkey)`. -/
def BitcoinHTLC.construct_taproot (h : BitcoinHTLC) : List Script :=
  [redeem_leaf h.secret_hash h.redeemer_pubkey,
   refund_leaf h.timelock h.initiator_pubkey,
   instant_refund_leaf h.initiator_pubkey h.redeemer_pubkey]

/-- `TaprootSpendInfo::control_block`: `some` control block exactly when
the queried script is a leaf of the finalized tree.  Control-block
serialization (internal key parity + merkle path) is abstracted as the
identified leaf, since the code only ever pushes the bytes opaquely. -/
def control_block (tree : List Script) (leaf : Script) : Option Script :=
  if leaf ∈ tree then some leaf else none

/-- `Leaf` (`htlc.rs` lines 193-197). -/
inductive Leaf where
  | Redeem
  | Refund
  | InstantRefund
deriving DecidableEq, Repr

/-- `BitcoinHTLC::get_control_block` (`htlc.rs` lines 100-132): rebuilds
the queried leaf script and looks its control block up in the finalized
tree, `unwrap`-ping the lookup (modelled as `none` = panic).  The
`Leaf::Refund` arm rebuilds the script with `self.redeemer_pubkey`. -/
def BitcoinHTLC.get_control_block (h : BitcoinHTLC) (leaf : Leaf) :
    Option (Script × Script) :=
  let tree := h.construct_taproot
  match leaf with
  | .Redeem =>
      let s := redeem_leaf h.secret_hash h.redeemer_pubkey
      (control_block tree s).map (fun cb => (s, cb))
  | .Refund =>
      let s := refund_leaf h.timelock h.redeemer_pubkey
      (control_block tree s).map (fun cb => (s, cb))
  | .InstantRefund =>
      let s := instant_refund_leaf h.initiator_pubkey h.redeemer_pubkey
      (control_block tree s).map (fun cb => (s, cb))

/-- One element of a witness stack.  Raw byte strings stay `bytes`;
scripts and control blocks enter the stack via their serializations,
kept symbolic; Schnorr/ECDSA signatures (external randomless crypto the
claims never inspect) are symbolic markers. -/
inductive WitElem where
  | bytes (bs : List Nat)
  | script (s : Script)
  | controlBlock (cb : Script)
  | schnorrSig
  | ecdsaSig
  | pubkey
deriving DecidableEq, Repr

/-- The `hex::decode("000000000000")` signature placeholder pushed first
by `redeem`/`refund`. -/
def sigPlaceholder : List Nat := [0, 0, 0, 0, 0, 0]

/-- Errors of `BitcoinHTLC::redeem`. -/
inductive RedeemErr where
  | hexError
  | secretMismatch
  | controlBlockPanic
deriving DecidableEq, Repr

/-- `BitcoinHTLC::redeem` (`htlc.rs` lines 134-157): hex-decode the
secret, SHA-256 it, compare against `secret_hash`, then assemble
`[sig placeholder, preimage, redeem script, control block]`. -/
def BitcoinHTLC.redeem (h : BitcoinHTLC) (secret : String) :
    Except RedeemErr (List WitElem) :=
  match hexDecode secret with
  | none => .error .hexError
  | some redeem_secret_bytes =>
      if sha256 redeem_secret_bytes ≠ h.secret_hash then
        .error .secretMismatch
      else
        match h.get_control_block .Redeem with
        | none => .error .controlBlockPanic
        | some (redeem_script, cb) =>
            .ok [.bytes sigPlaceholder, .bytes redeem_secret_bytes,
                 .script redeem_script, .controlBlock cb]

/-- `BitcoinHTLC::refund` (`htlc.rs` lines 160-173):
`[sig placeholder, refund script, control block]`; `none` models the
panic of the `unwrap` inside `get_control_block`. -/
def BitcoinHTLC.refund (h : BitcoinHTLC) : Option (List WitElem) :=
  (h.get_control_block .Refund).map fun (refund_script, cb) =>
    [.bytes sigPlaceholder, .script refund_script, .controlBlock cb]

/-! ## UTXOs and transactions -/

/-- `Status` of a UTXO (`primitives/src/htlc_handler.rs`). -/
structure UtxoStatus where
  confirmed : Bool
  block_height : Nat
  block_hash : String
  block_time : Nat
deriving DecidableEq, Repr

/-- `UTXO` (`primitives/src/htlc_handler.rs`). -/
structure UTXO where
  txid : String
  vout : Nat
  status : UtxoStatus
  value : Nat
deriving DecidableEq, Repr

/-- An output script, by the type the wallet's dust policy distinguishes
(`ScriptBuf::is_p2wpkh` / `is_p2tr`); the payload identifies the
address.  Wallet addresses double as their scripts here since the code
only ever turns an address into its `script_pubkey`. -/
inductive ScriptPubKey where
  | p2wpkh (keyhash : String)
  | p2tr (output_key : String)
  | other (raw : String)
deriving DecidableEq, Repr

/-- A transaction input; `sequence` is the raw `u32`. -/
structure TxInput where
  prev_txid : String
  prev_vout : Nat
  sequence : Nat
  witness : List WitElem
deriving DecidableEq, Repr

/-- A transaction output. -/
structure TxOutput where
  value : Nat
  script_pubkey : ScriptPubKey
deriving DecidableEq, Repr

/-- A transaction; `lock_time` is the consensus `u32`. -/
structure Tx where
  version : Nat
  lock_time : Nat
  input : List TxInput
  output : List TxOutput
deriving DecidableEq, Repr

/-- `Sequence::ENABLE_RBF_NO_LOCKTIME`. -/
def seqEnableRbfNoLocktime : Nat := 0xfffffffd

/-- `Sequence::ENABLE_LOCKTIME_NO_RBF`. -/
def seqEnableLocktimeNoRbf : Nat := 0xfffffffe

/-- `LockTime::from_height(h as u32)` as used by `refund_htlc`: the
height is truncated to `u32`; `from_height` accepts only values below
the 500 000 000 time/height threshold, and the surrounding `expect`
panics otherwise (`none`). -/
def lockTimeFromHeight (current_height : Nat) : Option Nat :=
  let h := current_height % 4294967296
  if h < 500000000 then some h else none

/-- The P2TR script of `BitcoinHTLC::address()`: output key derived from
the NUMS internal key and the Taproot merkle root, i.e. a pure function
of the HTLC parameters (serialization abstracted as an encoding of those
parameters). -/
def BitcoinHTLC.addressSpk (h : BitcoinHTLC) : ScriptPubKey :=
  .p2tr (hexEncode h.secret_hash ++ ":" ++ h.initiator_pubkey ++ ":" ++
         h.redeemer_pubkey ++ ":" ++ toString h.timelock)

/-! ## Indexer UTXO selection (`primitives/src/indexer.rs`) -/

/-- Total value of a UTXO list as the `i64` the selection loop sums. -/
def utxosTotal : List UTXO → Int
  | [] => 0
  | u :: rest => (u.value : Int) + utxosTotal rest

/-- The early-exit pass of `get_utxos_for_amount`'s loop: pushes UTXOs in
order onto the accumulated prefix and returns it the moment the running
total is exactly `amount`; `none` when the loop runs off the end without
an exact hit. -/
def accumulateUntilExact (amount : Int) : List UTXO → Int → Option (List UTXO)
  | [], _ => none
  | u :: rest, total =>
      let total' := total + (u.value : Int)
      if total' = amount then some [u]
      else (accumulateUntilExact amount rest total').map (u :: ·)

/-- `SimpleIndexer::get_utxos_for_amount` (`indexer.rs` lines 113-130)
on the fetched UTXO list: accumulate in list order, early-return the
prefix when the running total equals `amount` exactly; after the loop,
error when the total is short of `amount`, otherwise return every UTXO. -/
def get_utxos_for_amount (utxos : List UTXO) (amount : Int) :
    Except String (List UTXO) :=
  match accumulateUntilExact amount utxos 0 with
  | some filtered => .ok filtered
  | none =>
      if utxosTotal utxos < amount then .error "Not enough funds in UTXOs"
      else .ok utxos

/-! ## Wallet fee and dust policy (`executor/src/wallet.rs`) -/

/-- `HTLCWallet::get_dust_threshold` (`wallet.rs` lines 70-78). -/
def get_dust_threshold (script_pubkey : ScriptPubKey) : Nat :=
  match script_pubkey with
  | .p2wpkh _ => 294
  | .p2tr _ => 330
  | .other _ => 546

/-- `HTLCWallet::is_dust` (`wallet.rs` lines 81-83). -/
def is_dust (value : Nat) (script_pubkey : ScriptPubKey) : Bool :=
  value < get_dust_threshold script_pubkey

/-- `HTLCWallet::calculate_fee` (`wallet.rs` lines 86-97):
`fee_rate × (10 + 68·inputs + 35·outputs)` vbytes. -/
def calculate_fee (inputs outputs fee_rate : Nat) : Nat :=
  fee_rate * (10 + inputs * 68 + outputs * 35)

/-! ## Wallet transaction builders (`executor/src/wallet.rs`) -/

/-- Failures of `HTLCWallet::initiate_htlc`. -/
inductive InitiateErr where
  | selectionFailed
  | insufficientFunds (need have_ : Nat)
deriving DecidableEq, Repr

/-- `HTLCWallet::initiate_htlc` (`wallet.rs` lines 99-205) over the
sender address's fetched UTXO set: select via `get_utxos_for_amount`,
build RBF-enabled inputs, check `total ≥ amount + fee` for a 2-output
fee estimate at 10 sat/vbyte, emit the exact-amount HTLC output plus a
change output when change is positive and not dust, then sign every
input (P2WPKH ECDSA witness). -/
def initiate_htlc (sender_spk : ScriptPubKey) (htlc_spk : ScriptPubKey)
    (address_utxos : List UTXO) (amount : Nat) : Except InitiateErr Tx :=
  match get_utxos_for_amount address_utxos (amount : Int) with
  | .error _ => .error .selectionFailed
  | .ok utxos =>
      let inputs := utxos.map fun u =>
        TxInput.mk u.txid u.vout seqEnableRbfNoLocktime []
      let input_values := utxos.map (·.value)
      let estimated_fee := calculate_fee inputs.length 2 10
      let total_input := input_values.sum
      if total_input < amount + estimated_fee then
        .error (.insufficientFunds (amount + estimated_fee) total_input)
      else
        let htlc_output : TxOutput := ⟨amount, htlc_spk⟩
        let change_amount := total_input - amount - estimated_fee
        let outputs :=
          if change_amount > 0 then
            if is_dust change_amount sender_spk then [htlc_output]
            else [htlc_output, ⟨change_amount, sender_spk⟩]
          else [htlc_output]
        .ok { version := 2, lock_time := 0,
              input := inputs.map (fun i => { i with witness := [.ecdsaSig, .pubkey] }),
              output := outputs }

/-- Failures of `HTLCWallet::refund_htlc`; panics of the two
`expect`/`unwrap` sites are explicit error values. -/
inductive RefundErr where
  | notFunded
  | timelockNotExpired (blocks_remaining : Int)
  | dustOutput (value threshold : Nat)
  | lockTimePanic
  | refundWitnessPanic
  | invalidWitnessData
deriving DecidableEq, Repr

/-- `HTLCWallet::refund_htlc` (`wallet.rs` lines 333-475) over the HTLC
address's fetched UTXO set and the fetched current block height: reject
an unfunded address, then reject while
`current_height < utxo_block_height + timelock`, estimate a 1-in/1-out
fee at 20 sat/vbyte, reject a dust output, set the absolute locktime to
the current height with the CLTV-enabling sequence, fetch the refund
witness data from `BitcoinHTLC::refund`, and assemble the 3-element
witness `[signature, refund script, control block]`. -/
def refund_htlc (h : BitcoinHTLC) (refund_spk : ScriptPubKey)
    (utxos : List UTXO) (current_height : Nat) : Except RefundErr Tx :=
  match utxos with
  | [] => .error .notFunded
  | utxo :: _ =>
      let htlc_expiry_height : Int := (utxo.status.block_height : Int) + h.timelock
      if (current_height : Int) < htlc_expiry_height then
        .error (.timelockNotExpired (htlc_expiry_height - current_height))
      else
        let estimated_fee := calculate_fee 1 1 20
        let output_value := utxo.value - estimated_fee
        if is_dust output_value refund_spk then
          .error (.dustOutput output_value (get_dust_threshold refund_spk))
        else
          match lockTimeFromHeight current_height with
          | none => .error .lockTimePanic
          | some lock_time =>
              match h.refund with
              | none => .error .refundWitnessPanic
              | some witness_data =>
                  if witness_data.length < 3 then .error .invalidWitnessData
                  else
                    .ok { version := 2, lock_time,
                          input := [{ prev_txid := utxo.txid,
                                      prev_vout := utxo.vout,
                                      sequence := seqEnableLocktimeNoRbf,
                                      witness := [.schnorrSig,
                                                  witness_data.getD 1 (.bytes []),
                                                  witness_data.getD 2 (.bytes [])] }],
                          output := [⟨output_value, refund_spk⟩] }

/-- The timelock-expiry condition of the spec and of `refund_htlc`:
the chain has reached the height at which the HTLC's refund leaf becomes
spendable. -/
def timelockExpired (current_height utxo_block_height : Nat) (timelock : Int) : Prop :=
  (utxo_block_height : Int) + timelock ≤ current_height

instance (c b : Nat) (t : Int) : Decidable (timelockExpired c b t) := by
  unfold timelockExpired; infer_instance

/-! ## Order records and the action resolver (`executor/src/executor.rs`) -/

/-- The `Swap` record as read by the executor (`primitives::types::Swap`):
transition hashes optional, `secret` a plain string tested with
`is_empty`. -/
structure Swap where
  swap_id : String
  initiator : String
  redeemer : String
  amount : String
  secret_hash : String
  secret : String
  timelock : Int
  initiate_tx_hash : Option String
  redeem_tx_hash : Option String
  refund_tx_hash : Option String
deriving DecidableEq, Repr

/-- The `CreateOrder` fields the executor touches. -/
structure CreateOrder where
  create_id : String
  destination_amount : String
  bitcoin_optional_recipient : Option String
deriving DecidableEq, Repr

/-- `MatchedOrder`: one source and one destination swap under a create
order. -/
structure MatchedOrder where
  source_swap : Swap
  destination_swap : Swap
  create_order : CreateOrder
deriving DecidableEq, Repr

/-- `ActionType` (`executor.rs` lines 150-156). -/
inductive ActionType where
  | Init
  | Redeem
  | Refund
  | NoOp
deriving DecidableEq, Repr

/-- The `x.is_none() || x.as_ref().unwrap().is_empty()` test applied to
each transition hash in `determine_action`. -/
def noHash : Option String → Bool
  | none => true
  | some s => s.isEmpty

/-- `OrderToActionMapper::determine_action` (`executor.rs` lines 27-37),
first match wins: Init when the destination swap has no (non-empty)
initiate hash; Redeem when the source swap has no redeem hash and the
destination secret is non-empty; Refund when the destination swap has no
refund hash and does have an initiate hash; NoOp otherwise. -/
def determine_action (order : MatchedOrder) : ActionType :=
  if noHash order.destination_swap.initiate_tx_hash then .Init
  else if noHash order.source_swap.redeem_tx_hash &&
          !order.destination_swap.secret.isEmpty then .Redeem
  else if noHash order.destination_swap.refund_tx_hash &&
          order.destination_swap.initiate_tx_hash.isSome then .Refund
  else .NoOp

/-- `HTLCAction` (`executor.rs` lines 158-174), with the resolved
transaction. -/
inductive HTLCAction where
  | InitAction (order_id : String) (transaction : Tx)
  | RedeemAction (order_id : String) (transaction : Tx) (secret : String)
  | RefundAction (order_id : String) (transaction : Tx)
  | NoOp
deriving DecidableEq, Repr

/-- `Executor::process_pending_orders` (`executor.rs` lines 209-249) on a
fetched order batch: `mapper.map` failures are logged and the loop moves
on; a resolved Init/Redeem/Refund is broadcast with `?`, so a broadcast
failure aborts the remainder of the batch.  Returns the broadcast txids
in order. -/
def process_pending_orders (mapResult : MatchedOrder → Except String HTLCAction)
    (broadcast : Tx → Except String String) :
    List MatchedOrder → Except String (List String)
  | [] => .ok []
  | order :: rest =>
      match mapResult order with
      | .error _ => process_pending_orders mapResult broadcast rest
      | .ok .NoOp => process_pending_orders mapResult broadcast rest
      | .ok (.InitAction _ tx) | .ok (.RedeemAction _ tx _) | .ok (.RefundAction _ tx) => do
          let txid ← broadcast tx
          let restIds ← process_pending_orders mapResult broadcast rest
          .ok (txid :: restIds)

/-! ## The chain watcher (`watcher/src/watcher.rs`) -/

/-- The order record the watcher reads (`store::Order` as used in
`watch_order_htlc`): id, the two pubkeys, the hashlock and the
timelock. -/
structure WatchOrder where
  id : String
  recipient_pubkey : String
  refund_pubkey : String
  hashlock : String
  timelock : Nat
deriving DecidableEq, Repr

/-- `HtlcStatus` (`watcher/src/store.rs`). -/
inductive HtlcStatus where
  | Pending
  | Funded
  | Claimed
  | Refunded
  | Expired
deriving DecidableEq, Repr

/-- `BitcoinHtlcParams` (`watcher/src/store.rs`). -/
structure BitcoinHtlcParams where
  address : String
  amount_sats : Nat
  timelock : Nat
  hashlock : String
  refund_address : String
  status : HtlcStatus
  created_at : Nat
  expires_at : Nat
deriving DecidableEq, Repr

/-- `BitcoinEvent` variants the watcher emits from poll cycles
(`watcher/src/events.rs`). -/
inductive BitcoinEvent where
  | HtlcFunded (id : String) (tx_hash : String) (amount_sats : Nat) (confirmations : Nat)
  | HtlcClaimed (id : String) (tx_hash : String) (preimage : String)
  | HtlcRefunded (id : String) (tx_hash : String)
deriving DecidableEq, Repr

/-- A transaction input of a fetched spending transaction as the watcher
sees it through JSON: the `witness` array may be absent, and each stack
item is a hex string when it is a JSON string at all (`as_str`). -/
structure VinEntry where
  witness : Option (List (Option String))
deriving DecidableEq, Repr

/-- The fetched transaction data the watcher inspects. -/
structure TxData where
  vin : List VinEntry
deriving DecidableEq, Repr

/-- `BitcoinWatcher::create_htlc_address`: derives the Taproot HTLC
address string for `(hashlock, refund_pubkey, recipient_pubkey,
timelock)` via `BitcoinHTLC::address` — a pure, injective encoding of
the parameters (serialization abstracted). -/
def createHtlcAddress (recipient_pubkey refund_pubkey hashlock : String)
    (timelock : Nat) : String :=
  "p2tr:" ++ hashlock ++ ":" ++ refund_pubkey ++ ":" ++ recipient_pubkey ++
    ":" ++ toString timelock

/-- The HTLC address watched for a `WatchOrder`. -/
def watchOrderAddress (o : WatchOrder) : String :=
  createHtlcAddress o.recipient_pubkey o.refund_pubkey o.hashlock o.timelock

/-- `BitcoinWatcher::hash_secret`: hex-encoded SHA-256. -/
def hash_secret (secret : List Nat) : String :=
  hexEncode (sha256 secret)

/-- The per-input witness inspection inside
`analyze_spending_transaction`: a stack of at least 4 items whose item
at index 1 is a hex string whose bytes SHA-256-hash to the hashlock
yields that preimage string; every other shape yields nothing. -/
def analyzeWitness (w : List (Option String)) (hashlock : String) : Option String :=
  if 4 ≤ w.length then
    match w.getD 1 none with
    | some preimage_hex =>
        match hexDecode preimage_hex with
        | some preimage_bytes =>
            if hash_secret preimage_bytes = hashlock then some preimage_hex
            else none
        | none => none
    | none => none
  else none

/-- The preimage (if any) one transaction input yields: inputs without a
JSON `witness` array yield nothing. -/
def inputPreimage (hashlock : String) (inp : VinEntry) : Option String :=
  match inp.witness with
  | some w => analyzeWitness w hashlock
  | none => none

/-- The `for input in vin` loop of `analyze_spending_transaction`: the
first input producing a matching preimage returns it; all other inputs
are skipped. -/
def scanVin (hashlock : String) : List VinEntry → Option String
  | [] => none
  | inp :: rest =>
      match inputPreimage hashlock inp with
      | some preimage => some preimage
      | none => scanVin hashlock rest

/-- `BitcoinWatcher::analyze_spending_transaction` (`watcher.rs` lines
204-251) on the fetched transaction: scan the inputs in order and return
the first preimage whose SHA-256 matches the hashlock; `none` (= likely
refund) otherwise.  A transaction that could not be fetched is `none`
before this runs. -/
def analyze_spending_transaction (tx : TxData) (hashlock : String) : Option String :=
  scanVin hashlock tx.vin

/-- What one poll of an address sees on chain: its UTXO set, its total
transaction count, the most recent transaction id of the address (what
`get_spending_transaction` returns), and transaction lookup by id. -/
structure ChainView where
  utxos : List UTXO
  txCount : Nat
  spendingTx : Option String
  getTx : String → Option TxData

/-- The watcher's in-memory tables: `watched_addresses`
(address → last seen balance) and `init_watched_addresses`
(address → watching-for-init flag), as association lists with
most-recent-insert-first lookup (`HashMap` semantics). -/
structure WatcherState where
  watched : List (String × Nat)
  initWatched : List (String × Bool)

/-- `HashMap::get`. -/
def lookupA {α : Type} (l : List (String × α)) (k : String) : Option α :=
  (l.find? (fun p => p.1 == k)).map (·.2)

/-- `HashMap::insert` (replace any previous binding). -/
def insertA {α : Type} (l : List (String × α)) (k : String) (v : α) :
    List (String × α) :=
  (k, v) :: l.filter (fun p => !(p.1 == k))

/-- The events of the zero-UTXO/two-transactions branch of
`watch_order_htlc`: fetch the spending transaction and classify Claimed
(with preimage) versus Refunded; no event when no spending transaction
is found. -/
def classifySpend (cv : ChainView) (id hashlock : String) : List BitcoinEvent :=
  match cv.spendingTx with
  | none => []
  | some spending_tx =>
      match (cv.getTx spending_tx).bind (analyze_spending_transaction · hashlock) with
      | some preimage => [.HtlcClaimed id spending_tx preimage]
      | none => [.HtlcRefunded id spending_tx]

/-- The unconditional final
`watched_addresses.insert(addr, current_balance)` of
`watch_order_htlc` (`watcher.rs` line 197, reached on every path). -/
def recordBalance (st : WatcherState) (addr : String) (balance : Nat) :
    WatcherState :=
  { st with watched := insertA st.watched addr balance }

/-- The Funded detection of the non-empty-UTXO branch of
`watch_order_htlc` (`watcher.rs` lines 150-190): with a previously
recorded balance, emit only on an increase, attributing the UTXO whose
value equals the increase; on first observation attribute the first
UTXO. -/
def fundingEvents (cv : ChainView) (st : WatcherState) (addr id : String)
    (current_balance : Nat) : List BitcoinEvent :=
  match lookupA st.watched addr with
  | some previous_balance =>
      if current_balance > previous_balance then
        let increase := current_balance - previous_balance
        match cv.utxos.find? (fun u => u.value == increase) with
        | some funding_utxo =>
            [.HtlcFunded id funding_utxo.txid increase
               (if funding_utxo.status.confirmed then 1 else 0)]
        | none => []
      else []
  | none =>
      match cv.utxos.head? with
      | some funding_utxo =>
          [.HtlcFunded id funding_utxo.txid funding_utxo.value
             (if funding_utxo.status.confirmed then 1 else 0)]
      | none => []

/-- `BitcoinWatcher::watch_order_htlc` (`watcher.rs` lines 87-200) as a
pure transition on the fetched chain view: returns the emitted events
and the updated watcher state (with the final balance insert applied on
every path). -/
def watch_order_htlc (cv : ChainView) (st : WatcherState) (o : WatchOrder) :
    List BitcoinEvent × WatcherState :=
  let addr := watchOrderAddress o
  let current_balance := (cv.utxos.map (·.value)).sum
  let is_watching_init := (lookupA st.initWatched addr).getD false
  if cv.utxos.isEmpty then
    if cv.txCount = 0 then
      ([], recordBalance
        (if is_watching_init then st
         else { st with initWatched := insertA st.initWatched addr true })
        addr current_balance)
    else if cv.txCount = 2 then
      (classifySpend cv o.id o.hashlock,
       recordBalance { st with initWatched := insertA st.initWatched addr false }
         addr current_balance)
    else ([], recordBalance st addr current_balance)
  else
    (fundingEvents cv st addr o.id current_balance,
     recordBalance { st with initWatched := insertA st.initWatched addr false }
       addr current_balance)

/-- `BitcoinWatcher::watch_htlc_address` (`watcher.rs` lines 290-326):
emit Funded only when a previously recorded balance increased; always
record the current balance. -/
def watch_htlc_address (cv : ChainView) (st : WatcherState)
    (id : String) (params : BitcoinHtlcParams) : List BitcoinEvent × WatcherState :=
  let current_balance := (cv.utxos.map (·.value)).sum
  let events :=
    match lookupA st.watched params.address with
    | some previous_balance =>
        if current_balance > previous_balance then
          let increase := current_balance - previous_balance
          match cv.utxos.find? (fun u => u.value == increase) with
          | some funding_utxo =>
              [BitcoinEvent.HtlcFunded id funding_utxo.txid increase
                 (if funding_utxo.status.confirmed then 1 else 0)]
          | none => []
        else []
    | none => []
  (events, { st with watched := insertA st.watched params.address current_balance })

/-- `BitcoinWatcher::monitor_funded_htlc` (`watcher.rs` lines 328-360):
when the address has no UTXOs left, classify the spend. -/
def monitor_funded_htlc (cv : ChainView) (id : String)
    (params : BitcoinHtlcParams) : List BitcoinEvent :=
  if cv.utxos.isEmpty then classifySpend cv id params.hashlock else []

/-- The orders loop of `watch_cycle` (`watcher.rs` lines 62-64):
`self.watch_order_htlc(&order).await?` — fetching or handling failures
for one order propagate and end the cycle. -/
def runWatchOrders (fetch : String → Except String ChainView) :
    List WatchOrder → WatcherState →
    Except String (List BitcoinEvent × WatcherState)
  | [], st => .ok ([], st)
  | o :: rest, st => do
      let cv ← fetch (watchOrderAddress o)
      let (events, st') := watch_order_htlc cv st o
      let (laterEvents, st'') ← runWatchOrders fetch rest st'
      .ok (events ++ laterEvents, st'')

/-- The pending-HTLCs loop of `watch_cycle` (`watcher.rs` lines 71-73). -/
def runWatchPending (fetch : String → Except String ChainView) :
    List (String × BitcoinHtlcParams) → WatcherState →
    Except String (List BitcoinEvent × WatcherState)
  | [], st => .ok ([], st)
  | (id, params) :: rest, st => do
      let cv ← fetch params.address
      let (events, st') := watch_htlc_address cv st id params
      let (laterEvents, st'') ← runWatchPending fetch rest st'
      .ok (events ++ laterEvents, st'')

/-- The funded-HTLCs loop of `watch_cycle` (`watcher.rs` lines 76-78). -/
def runMonitorFunded (fetch : String → Except String ChainView) :
    List (String × BitcoinHtlcParams) →
    Except String (List BitcoinEvent)
  | [] => .ok []
  | (id, params) :: rest => do
      let cv ← fetch params.address
      let events := monitor_funded_htlc cv id params
      let laterEvents ← runMonitorFunded fetch rest
      .ok (events ++ laterEvents)

/-- `BitcoinWatcher::watch_cycle` (`watcher.rs` lines 51-81): the three
loops in order, each step joined with `?`.  The expired-HTLC cleanup
only rewrites stored statuses, which are already reflected in the
`pending`/`funded` input lists of this pure model. -/
def watch_cycle (fetch : String → Except String ChainView) (st : WatcherState)
    (orders : List WatchOrder) (pending funded : List (String × BitcoinHtlcParams)) :
    Except String (List BitcoinEvent × WatcherState) := do
  let (orderEvents, st1) ← runWatchOrders fetch orders st
  let (pendingEvents, st2) ← runWatchPending fetch pending st1
  let fundedEvents ← runMonitorFunded fetch funded
  .ok (orderEvents ++ pendingEvents ++ fundedEvents, st2)

/-! ## Derived views of the funding pipeline (for stating its contract) -/

/-- The inputs `initiate_htlc` ends up building on: the selected UTXOs
when selection succeeds, the address's whole UTXO set when selection
already failed for lack of funds. -/
def selectedUtxos (address_utxos : List UTXO) (amount : Nat) : List UTXO :=
  match get_utxos_for_amount address_utxos (amount : Int) with
  | .ok utxos => utxos
  | .error _ => address_utxos

/-- The funding fee estimate for those inputs (2 outputs, 10 sat/vbyte). -/
def selectionFee (address_utxos : List UTXO) (amount : Nat) : Nat :=
  calculate_fee (selectedUtxos address_utxos amount).length 2 10

/-- Their total value in sats. -/
def selectionTotal (address_utxos : List UTXO) (amount : Nat) : Nat :=
  ((selectedUtxos address_utxos amount).map (·.value)).sum

/-! ## Concrete instances used by the counterexamples and witnesses -/

/-- SHA-256 of the empty byte string (the digest the repo's refund test
uses as its hashlock). -/
def emptyStringDigest : List Nat :=
  [0xe3, 0xb0, 0xc4, 0x42, 0x98, 0xfc, 0x1c, 0x14,
   0x9a, 0xfb, 0xf4, 0xc8, 0x99, 0x6f, 0xb9, 0x24,
   0x27, 0xae, 0x41, 0xe4, 0x64, 0x9b, 0x93, 0x4c,
   0xa4, 0x95, 0x99, 0x1b, 0x78, 0x52, 0xb8, 0x55]

/-- The secret of the repo's redeem test
(`primitives/src/htlc.rs`, `test_redeem`). -/
def testSecretHex : String :=
  "db3fafd38168bcb8ea8979e010f4a377ca426f3ce478ea6ea23769d416306180"

/-- Its SHA-256 digest, hex encoded (the test's `secret_hash`). -/
def testSecretHashHex : String :=
  "731170d859f81a395a79e02cf3812e413b21793900e70ff77e48dfcf7ef6a4e6"

/-- An HTLC whose initiator and redeemer coincide (as in the repo's
init-and-redeem wallet test), timelock 12. -/
def sameKeyHtlc : BitcoinHTLC :=
  { initiator_pubkey := "aa", redeemer_pubkey := "aa",
    secret_hash := emptyStringDigest, timelock := 12, network := .regtest }

/-- An HTLC whose initiator and redeemer differ (as in the repo's
refund wallet test), timelock 12. -/
def twoKeyHtlc : BitcoinHTLC :=
  { initiator_pubkey := "aa", redeemer_pubkey := "bb",
    secret_hash := emptyStringDigest, timelock := 12, network := .regtest }

/-- A funded HTLC UTXO of 1 000 sats mined at height 0: too small to
cover the 2 260-sat refund fee. -/
def smallUtxo : UTXO := ⟨"f0", 0, ⟨true, 0, "", 0⟩, 1000⟩

/-- A funded HTLC UTXO of 50 000 sats mined at height 0. -/
def bigUtxo : UTXO := ⟨"f1", 0, ⟨true, 0, "", 0⟩, 50000⟩

/-- UTXOs of 60, 30, 20 and 10 sats for the selection claims. -/
def utxo60 : UTXO := ⟨"u60", 0, ⟨true, 5, "", 0⟩, 60⟩

def utxo30 : UTXO := ⟨"u30", 0, ⟨true, 5, "", 0⟩, 30⟩

def utxo20 : UTXO := ⟨"u20", 1, ⟨true, 5, "", 0⟩, 20⟩

def utxo10 : UTXO := ⟨"u10", 2, ⟨true, 5, "", 0⟩, 10⟩

/-- A sender UTXO of 11 774 sats: funding 10 000 sats with a one-input
fee of 1 480 sats leaves change of exactly the 294-sat P2WPKH dust
threshold. -/
def boundaryUtxo : UTXO := ⟨"u294", 0, ⟨true, 3, "", 0⟩, 11774⟩

/-- A swap with no transition hashes recorded. -/
def blankSwap : Swap :=
  { swap_id := "s", initiator := "i", redeemer := "r", amount := "1000",
    secret_hash := "sh", secret := "", timelock := 12,
    initiate_tx_hash := none, redeem_tx_hash := none, refund_tx_hash := none }

/-- An order whose destination leg is initiated, whose secret is not yet
revealed and whose destination refund is unrecorded — the resolver's
Refund shape, with no height in sight. -/
def refundShapedOrder : MatchedOrder :=
  { source_swap := blankSwap,
    destination_swap := { blankSwap with
                          swap_id := "d",
                          initiate_tx_hash := some "itx" },
    create_order := { create_id := "ord5", destination_amount := "1000",
                      bitcoin_optional_recipient := none } }

/-- A spending transaction carrying the repo's test preimage at witness
index 1 of its single input. -/
def claimTxData : TxData :=
  { vin := [ { witness := some [some "aabb", some testSecretHex,
                                some "5120ab", some "c0ab"] } ] }

/-- A spending transaction with an input whose 3-element witness cannot
carry a preimage (the refund shape). -/
def refundTxData : TxData :=
  { vin := [ { witness := some [some "aabb", some "5120ab", some "c0ab"] } ] }

/-- A fulfilled HTLC address as one poll sees it: no UTXOs, two
transactions, spending transaction `"spend1"` resolving to
`claimTxData`. -/
def claimedView : ChainView :=
  { utxos := [], txCount := 2, spendingTx := some "spend1",
    getTx := fun t => if t = "spend1" then some claimTxData else none }

/-- The same shape but with the refund-shaped spending transaction. -/
def refundedView : ChainView :=
  { utxos := [], txCount := 2, spendingTx := some "spend2",
    getTx := fun t => if t = "spend2" then some refundTxData else none }

/-- A freshly funded view: one 50 000-sat UTXO, one transaction. -/
def fundedView : ChainView :=
  { utxos := [bigUtxo], txCount := 1, spendingTx := none,
    getTx := fun _ => none }

/-- The empty watcher state. -/
def emptyWatcherState : WatcherState := ⟨[], []⟩

/-- The watch order whose hashlock is the repo's test secret hash. -/
def claimWatchOrder : WatchOrder :=
  ⟨"ord3", "rk", "fk", testSecretHashHex, 12⟩

/-- A second watch order (distinct address) for the isolation claim. -/
def otherWatchOrder : WatchOrder :=
  ⟨"ord6", "rk2", "fk2", "deadbeef", 12⟩

/-- A fetcher whose indexer call fails for `claimWatchOrder`'s address
and succeeds (with the refunded view) everywhere else. -/
def faultyFetch (addr : String) : Except String ChainView :=
  if addr = watchOrderAddress claimWatchOrder then .error "indexer timeout"
  else .ok refundedView

/-- A pending-HTLC record for the replay claims. -/
def pendingParams : BitcoinHtlcParams :=
  ⟨"addrP", 50000, 12, testSecretHashHex, "refAddr", .Pending, 0, 12⟩

/-- The funding transaction built from `boundaryUtxo` for 10 000 sats:
one RBF-enabled signed input and a change output of exactly the 294-sat
dust threshold. -/
def fundBoundaryTx : Tx :=
  { version := 2, lock_time := 0,
    input := [⟨"u294", 0, seqEnableRbfNoLocktime, [.ecdsaSig, .pubkey]⟩],
    output := [⟨10000, .p2tr "h"⟩, ⟨294, .p2wpkh "pk"⟩] }

/-! # Theorems -/

/-! ## Shared helper lemmas -/

theorem lookupA_insertA_self {α : Type} (l : List (String × α)) (k : String) (v : α) :
    lookupA (insertA l k v) k = some v := by
  simp [lookupA, insertA, List.find?]

theorem noHash_false_isSome {x : Option String} (h : noHash x = false) :
    x.isSome = true := by
  cases x <;> simp_all [noHash]

/-! ## C10 — dust classification -/

/-- C10: an output value is classified as dust exactly when it is
strictly below the threshold of its script, the thresholds being 294
sats for P2WPKH, 330 for P2TR and 546 for anything else; a value equal
to the threshold is not dust. -/
theorem dust_classification (v : Nat) (s : ScriptPubKey) :
    (is_dust v s = true ↔ v < get_dust_threshold s)
  ∧ (get_dust_threshold s = match s with
      | .p2wpkh _ => 294 | .p2tr _ => 330 | .other _ => 546)
  ∧ is_dust (get_dust_threshold s) s = false := by
  refine ⟨?_, ?_, ?_⟩ <;> cases s <;> simp [is_dust, get_dust_threshold]

/-! ## C5 — the resolver's Refund branch -/

/-- C5 counterexample: `determine_action` resolves this
initiated-but-unsettled order to `Refund` although the resolver consults
no chain height at all — in particular at current height 5 the order's
12-block timelock (counted from a funding at height 0) has not expired,
yet the resolved action is still `Refund`. -/
theorem resolver_refund_ignores_timelock :
    determine_action refundShapedOrder = ActionType.Refund ∧
    ¬ timelockExpired 5 0 refundShapedOrder.destination_swap.timelock := by
  exact ⟨by decide, by decide⟩

/-- C5 (amended): the resolver returns `Refund` exactly when the
destination swap has a non-empty initiate hash, the Redeem branch does
not fire (no unredeemed source paired with a revealed destination
secret), and the destination swap has no non-empty refund hash; no
timelock-expiry condition is evaluated at resolution time. -/
theorem determine_action_refund_iff (order : MatchedOrder) :
    determine_action order = ActionType.Refund ↔
      noHash order.destination_swap.initiate_tx_hash = false ∧
      (noHash order.source_swap.redeem_tx_hash &&
        !order.destination_swap.secret.isEmpty) = false ∧
      noHash order.destination_swap.refund_tx_hash = true := by
  unfold determine_action
  split_ifs with h1 h2 h3
  · simp [h1]
  · simp [h1, h2]
  · have hs := noHash_false_isSome (x := order.destination_swap.initiate_tx_hash)
    constructor
    · intro _
      refine ⟨by simpa using h1, by simpa using h2, ?_⟩
      rcases Bool.and_eq_true .. |>.mp h3 with ⟨hr, _⟩
      exact hr
    · intro _; rfl
  · constructor
    · intro hEq; cases hEq
    · rintro ⟨hinit, _, hrefund⟩
      exact absurd (by simp [hrefund, noHash_false_isSome hinit]) h3

/-! ## C2 — the refund leaf committed vs. the refund leaf looked up -/

/-- C2: whenever the initiator and redeemer pubkeys differ, the script
`get_control_block(Leaf::Refund)` rebuilds —
`refund_leaf(timelock, redeemer_pubkey)` — is not a leaf of the Taproot
tree (which committed `refund_leaf(timelock, initiator_pubkey)`), so the
control-block lookup finds nothing, its `unwrap` panic is reachable, and
`refund()` yields no usable witness data. -/
theorem refund_control_block_unreachable (h : BitcoinHTLC)
    (hk : h.initiator_pubkey ≠ h.redeemer_pubkey) :
    refund_leaf h.timelock h.redeemer_pubkey ∉ h.construct_taproot
  ∧ h.get_control_block .Refund = none
  ∧ h.refund = none := by
  have hmem : refund_leaf h.timelock h.redeemer_pubkey ∉ h.construct_taproot := by
    simp only [BitcoinHTLC.construct_taproot, refund_leaf, redeem_leaf,
               instant_refund_leaf, List.mem_cons, List.mem_singleton,
               List.not_mem_nil, or_false]
    rintro (hEq | hEq | hEq) <;> simp_all
  have hcb : h.get_control_block .Refund = none := by
    simp [BitcoinHTLC.get_control_block, control_block, hmem]
  exact ⟨hmem, hcb, by simp [BitcoinHTLC.refund, hcb]⟩

/-- C2 witness: a concrete HTLC with distinct keys on which `refund()`
yields nothing. -/
theorem refund_control_block_unreachable_witness :
    twoKeyHtlc.initiator_pubkey ≠ twoKeyHtlc.redeemer_pubkey ∧
    BitcoinHTLC.refund twoKeyHtlc = none := by
  have hk : twoKeyHtlc.initiator_pubkey ≠ twoKeyHtlc.redeemer_pubkey := by decide
  exact ⟨hk, (refund_control_block_unreachable twoKeyHtlc hk).2.2⟩

/-! ## C8 — redeem succeeds iff the secret hashes to the commitment -/

theorem get_control_block_redeem (h : BitcoinHTLC) :
    h.get_control_block .Redeem =
      some (redeem_leaf h.secret_hash h.redeemer_pubkey,
            redeem_leaf h.secret_hash h.redeemer_pubkey) := by
  simp [BitcoinHTLC.get_control_block, control_block, BitcoinHTLC.construct_taproot]

/-- C8: for a hex-encoded secret, `redeem(secret)` succeeds — returning
the 4-element witness whose second element is the decoded preimage —
exactly when the SHA-256 of the decoded secret equals the HTLC's
`secret_hash`; on a hash mismatch it fails with the secret-mismatch
error. -/
theorem redeem_iff_hash_matches (h : BitcoinHTLC) (secret : String)
    (bs : List Nat) (hd : hexDecode secret = some bs) :
    ((∃ w, h.redeem secret = .ok w ∧ w.length = 4 ∧
        w.getD 1 (.bytes []) = .bytes bs) ↔ sha256 bs = h.secret_hash)
  ∧ (sha256 bs ≠ h.secret_hash → h.redeem secret = .error .secretMismatch) := by
  unfold BitcoinHTLC.redeem
  rw [hd]
  by_cases hh : sha256 bs = h.secret_hash
  · simp [hh, get_control_block_redeem]
  · simp [hh]

/-- C8 witness: the empty hex secret decodes to the empty byte string,
whose SHA-256 is `sameKeyHtlc`'s commitment, so redeem succeeds with the
4-element witness. -/
theorem redeem_iff_hash_matches_witness :
    hexDecode "" = some [] ∧
    (∃ w, BitcoinHTLC.redeem sameKeyHtlc "" = .ok w ∧ w.length = 4 ∧
        w.getD 1 (.bytes []) = .bytes []) := by
  exact ⟨rfl, (redeem_iff_hash_matches sameKeyHtlc "" [] rfl).1.mpr (by decide)⟩

/-! ## C4 — greedy UTXO selection -/

theorem utxosTotal_nonneg (l : List UTXO) : 0 ≤ utxosTotal l := by
  induction l with
  | nil => simp [utxosTotal]
  | cons u rest ih => simp only [utxosTotal]; omega

theorem utxosTotal_append (l₁ l₂ : List UTXO) :
    utxosTotal (l₁ ++ l₂) = utxosTotal l₁ + utxosTotal l₂ := by
  induction l₁ with
  | nil => simp [utxosTotal]
  | cons u rest ih =>
      rw [List.cons_append]
      simp only [utxosTotal, ih]
      ring

theorem accumulate_eq_some (amount : Int) (utxos : List UTXO) (t : Int)
    (pre : List UTXO) (hacc : accumulateUntilExact amount utxos t = some pre) :
    (∃ rest, pre ++ rest = utxos) ∧ t + utxosTotal pre = amount := by
  induction utxos generalizing t pre with
  | nil => simp [accumulateUntilExact] at hacc
  | cons u rest ih =>
      simp only [accumulateUntilExact] at hacc
      by_cases heq : t + (u.value : Int) = amount
      · rw [if_pos heq] at hacc
        cases hacc
        exact ⟨⟨rest, rfl⟩, by simp only [utxosTotal]; omega⟩
      · rw [if_neg heq] at hacc
        cases hrec : accumulateUntilExact amount rest (t + (u.value : Int)) with
        | none => rw [hrec] at hacc; exact absurd hacc (by simp)
        | some pre' =>
            rw [hrec] at hacc
            simp only [Option.map_some', Option.some.injEq] at hacc
            obtain ⟨⟨rest', hsplit⟩, hsum⟩ := ih _ _ hrec
            subst hacc
            refine ⟨⟨rest', by simpa using hsplit⟩, ?_⟩
            simp only [utxosTotal]
            omega

theorem accumulate_eq_none_of_lt (amount : Int) (utxos : List UTXO) (t : Int)
    (hlt : t + utxosTotal utxos < amount) :
    accumulateUntilExact amount utxos t = none := by
  induction utxos generalizing t with
  | nil => simp [accumulateUntilExact]
  | cons u rest ih =>
      have hnn : 0 ≤ utxosTotal rest := utxosTotal_nonneg rest
      simp only [utxosTotal] at hlt
      have hne : ¬ t + (u.value : Int) = amount := by omega
      have hrec : accumulateUntilExact amount rest (t + (u.value : Int)) = none :=
        ih _ (by omega)
      simp only [accumulateUntilExact, if_neg hne, hrec, Option.map_none']

theorem selection_error_iff (utxos : List UTXO) (amount : Int) :
    (∃ e, get_utxos_for_amount utxos amount = .error e) ↔
      utxosTotal utxos < amount := by
  unfold get_utxos_for_amount
  cases hacc : accumulateUntilExact amount utxos 0 with
  | some pre =>
      obtain ⟨⟨rest, hsplit⟩, hsum⟩ := accumulate_eq_some _ _ _ _ hacc
      have htot : utxosTotal utxos = utxosTotal pre + utxosTotal rest := by
        rw [← hsplit, utxosTotal_append]
      have hnn : 0 ≤ utxosTotal rest := utxosTotal_nonneg rest
      constructor
      · rintro ⟨e, hE⟩; cases hE
      · intro hlt; omega
  | none =>
      by_cases hlt : utxosTotal utxos < amount
      · simp [hlt]
      · simp [hlt]

/-- C4 counterexample: for UTXOs of 60 and 10 sats and a 50-sat target,
the first UTXO alone already covers the target, yet
`get_utxos_for_amount` does not stop there — it returns both UTXOs. -/
theorem selection_overshoot_returns_all :
    get_utxos_for_amount [utxo60, utxo10] 50 = .ok [utxo60, utxo10] ∧
    (50 : Int) ≤ (utxo60.value : Int) := by
  exact ⟨rfl, by decide⟩

/-- C4 (amended): `get_utxos_for_amount` accumulates in list order, but
stops early only when the running total hits the target *exactly*
(returning that prefix); in every other covered case it returns the
address's entire UTXO list.  It fails exactly when the sum of all the
address's UTXOs is below the target. -/
theorem selection_characterization (utxos : List UTXO) (amount : Int) :
    ((∃ e, get_utxos_for_amount utxos amount = .error e) ↔
      utxosTotal utxos < amount)
  ∧ (∀ l, get_utxos_for_amount utxos amount = .ok l →
      l = utxos ∨ (utxosTotal l = amount ∧ ∃ rest, l ++ rest = utxos)) := by
  refine ⟨selection_error_iff utxos amount, ?_⟩
  intro l hok
  unfold get_utxos_for_amount at hok
  cases hacc : accumulateUntilExact amount utxos 0 with
  | some pre =>
      rw [hacc] at hok
      cases hok
      obtain ⟨hsplit, hsum⟩ := accumulate_eq_some _ _ _ _ hacc
      exact Or.inr ⟨by omega, hsplit⟩
  | none =>
      rw [hacc] at hok
      by_cases hlt : utxosTotal utxos < amount
      · rw [if_pos hlt] at hok; cases hok
      · rw [if_neg hlt] at hok; cases hok; exact Or.inl rfl

/-- C4 witness: with UTXOs of 30, 20 and 10 sats and a 50-sat target the
running total hits 50 exactly after two UTXOs, so the returned list is
that exact-sum prefix. -/
theorem selection_characterization_witness :
    get_utxos_for_amount [utxo30, utxo20, utxo10] 50 = .ok [utxo30, utxo20] ∧
    ([utxo30, utxo20] = [utxo30, utxo20, utxo10] ∨
      (utxosTotal [utxo30, utxo20] = 50 ∧
        ∃ rest, [utxo30, utxo20] ++ rest = [utxo30, utxo20, utxo10])) := by
  exact ⟨rfl, (selection_characterization [utxo30, utxo20, utxo10] 50).2
    [utxo30, utxo20] rfl⟩

/-! ## C9 — the funding builder -/

theorem utxosTotal_eq_cast (l : List UTXO) :
    utxosTotal l = (((l.map (·.value)).sum : Nat) : Int) := by
  induction l with
  | nil => simp [utxosTotal]
  | cons u rest ih =>
      simp only [utxosTotal, ih, List.map_cons, List.sum_cons]
      push_cast
      ring

/-- C9 counterexample: funding 10 000 sats from an 11 774-sat UTXO
leaves change of exactly the 294-sat P2WPKH dust threshold — not
*strictly greater* than it — and the builder still emits a change
output instead of folding the change into the fee. -/
theorem fund_change_at_dust_threshold :
    Except.map (fun tx => tx.output)
        (initiate_htlc (.p2wpkh "pk") (.p2tr "h") [boundaryUtxo] 10000) =
      .ok [⟨10000, .p2tr "h"⟩, ⟨294, .p2wpkh "pk"⟩] ∧
    boundaryUtxo.value - 10000 - calculate_fee 1 2 10 =
      get_dust_threshold (.p2wpkh "pk") := by
  exact ⟨rfl, rfl⟩

/-- C9 (amended): funding fails exactly when the selected inputs' total
is below `amount + estimatedFee(inputs, 2 outputs, 10 sat/vbyte)` (with
the whole UTXO set standing in as "selected" when selection itself
already failed for lack of funds); on success the transaction carries
the exact-amount HTLC output first, followed by a change output back to
the sender if and only if the change is *not dust*, i.e. at least (not
strictly above) the 294-sat threshold of the sender's P2WPKH script. -/
theorem fund_builder_characterization (pk : String) (htlc_spk : ScriptPubKey)
    (address_utxos : List UTXO) (amount : Nat) :
    ((∃ e, initiate_htlc (.p2wpkh pk) htlc_spk address_utxos amount = .error e) ↔
      selectionTotal address_utxos amount <
        amount + selectionFee address_utxos amount)
  ∧ (∀ tx, initiate_htlc (.p2wpkh pk) htlc_spk address_utxos amount = .ok tx →
      tx.output = ⟨amount, htlc_spk⟩ ::
        (if 294 ≤ selectionTotal address_utxos amount - amount -
              selectionFee address_utxos amount
         then [⟨selectionTotal address_utxos amount - amount -
                 selectionFee address_utxos amount, .p2wpkh pk⟩]
         else [])) := by
  cases hsel : get_utxos_for_amount address_utxos (amount : Int) with
  | error e =>
      have hlt : utxosTotal address_utxos < (amount : Int) :=
        (selection_error_iff address_utxos amount).mp ⟨e, hsel⟩
      rw [utxosTotal_eq_cast] at hlt
      have hltN : (address_utxos.map (·.value)).sum < amount := by
        omega
      constructor
      · simp only [initiate_htlc, hsel, selectionTotal, selectionFee,
                   selectedUtxos]
        constructor
        · intro _; omega
        · intro _; exact ⟨.selectionFailed, rfl⟩
      · intro tx htx
        simp only [initiate_htlc, hsel] at htx
        exact absurd htx (by simp)
  | ok sel =>
      have hselTot : selectionTotal address_utxos amount =
          (sel.map (·.value)).sum := by
        simp [selectionTotal, selectedUtxos, hsel]
      have hselFee : selectionFee address_utxos amount =
          calculate_fee sel.length 2 10 := by
        simp [selectionFee, selectedUtxos, hsel]
      by_cases hlt : (sel.map (·.value)).sum <
          amount + calculate_fee (sel.map fun u =>
            TxInput.mk u.txid u.vout seqEnableRbfNoLocktime []).length 2 10
      · constructor
        · rw [hselTot, hselFee]
          simp only [initiate_htlc, hsel, if_pos hlt]
          constructor
          · intro _
            simpa using hlt
          · intro _
            exact ⟨_, rfl⟩
        · intro tx htx
          simp only [initiate_htlc, hsel, if_pos hlt] at htx
          exact absurd htx (by simp)
      · constructor
        · rw [hselTot, hselFee]
          simp only [initiate_htlc, hsel, if_neg hlt]
          constructor
          · rintro ⟨e, hE⟩; cases hE
          · intro hcontra
            exact absurd (by simpa using hcontra) hlt
        · intro tx htx
          simp only [initiate_htlc, hsel, if_neg hlt] at htx
          injection htx with htx'
          rw [← htx']
          dsimp only
          rw [hselTot, hselFee]
          set change := (sel.map (·.value)).sum - amount -
            calculate_fee sel.length 2 10 with hchange
          have hlen : (sel.map fun u =>
              TxInput.mk u.txid u.vout seqEnableRbfNoLocktime []).length =
              sel.length := by simp
          rw [hlen]
          by_cases h294 : 294 ≤ change
          · have hpos : change > 0 := by omega
            have hnd : is_dust change (.p2wpkh pk) = false := by
              simp [is_dust, get_dust_threshold]; omega
            rw [if_pos hpos, hnd, if_pos h294]
            simp
          · rw [if_neg h294]
            by_cases hpos : change > 0
            · have hd : is_dust change (.p2wpkh pk) = true := by
                simp [is_dust, get_dust_threshold]; omega
              rw [if_pos hpos, hd]
              simp
            · rw [if_neg hpos]

/-- C9 witness: the boundary funding instance, with its selected total,
fee and threshold-sized change output produced as the contract states. -/
theorem fund_builder_characterization_witness :
    initiate_htlc (.p2wpkh "pk") (.p2tr "h") [boundaryUtxo] 10000 =
      .ok fundBoundaryTx ∧
    fundBoundaryTx.output = ⟨10000, .p2tr "h"⟩ ::
      (if 294 ≤ selectionTotal [boundaryUtxo] 10000 - 10000 -
            selectionFee [boundaryUtxo] 10000
       then [⟨selectionTotal [boundaryUtxo] 10000 - 10000 -
               selectionFee [boundaryUtxo] 10000, .p2wpkh "pk"⟩]
       else []) := by
  refine ⟨rfl, ?_⟩
  exact (fund_builder_characterization "pk" (.p2tr "h") [boundaryUtxo] 10000).2
    fundBoundaryTx rfl

/-! ## C1 — refund building and the timelock gate -/

theorem refund_some_of_same_key (h : BitcoinHTLC)
    (hk : h.initiator_pubkey = h.redeemer_pubkey) :
    h.refund = some [.bytes sigPlaceholder,
                     .script (refund_leaf h.timelock h.redeemer_pubkey),
                     .controlBlock (refund_leaf h.timelock h.redeemer_pubkey)] := by
  simp [BitcoinHTLC.refund, BitcoinHTLC.get_control_block, control_block,
        BitcoinHTLC.construct_taproot, hk]

/-- C1 counterexample: a funded 1 000-sat HTLC UTXO whose 12-block
timelock has long expired at height 100, yet refund building does not
succeed — the fee-reduced output is dust, so it fails with the dust
error.  (The claim promises success whenever
`current_height ≥ utxo_height + timelock`.) -/
theorem refund_fails_after_expiry_on_dust :
    refund_htlc sameKeyHtlc (.p2wpkh "w") [smallUtxo] 100 =
      .error (.dustOutput 0 294) ∧
    timelockExpired 100 smallUtxo.status.block_height sameKeyHtlc.timelock := by
  exact ⟨rfl, by decide⟩

/-- C1 (amended): for a funded HTLC UTXO, refund building fails with the
timelock error *exactly* when `current_height < utxo_height + timelock`;
once the timelock has expired it succeeds — with absolute locktime equal
to the current height and a single input carrying a 3-element witness —
provided the height fits a valid locktime, the fee-reduced output clears
the refund script's dust threshold, and the refund witness data is
constructible at all (which the refund-leaf key mix-up restricts to
HTLCs whose initiator and redeemer pubkeys coincide). -/
theorem refund_timelock_characterization (h : BitcoinHTLC)
    (refund_spk : ScriptPubKey) (utxo : UTXO) (rest : List UTXO)
    (current_height : Nat) :
    ((∃ w, refund_htlc h refund_spk (utxo :: rest) current_height =
        .error (.timelockNotExpired w)) ↔
      ¬ timelockExpired current_height utxo.status.block_height h.timelock)
  ∧ (h.initiator_pubkey = h.redeemer_pubkey →
     timelockExpired current_height utxo.status.block_height h.timelock →
     current_height < 500000000 →
     is_dust (utxo.value - calculate_fee 1 1 20) refund_spk = false →
     ∃ tx, refund_htlc h refund_spk (utxo :: rest) current_height = .ok tx ∧
       tx.lock_time = current_height ∧ tx.input.length = 1 ∧
       ∀ i ∈ tx.input, i.witness.length = 3) := by
  constructor
  · by_cases hc : (current_height : Int) <
        (utxo.status.block_height : Int) + h.timelock
    · apply iff_of_true
      · refine ⟨(utxo.status.block_height : Int) + h.timelock - current_height, ?_⟩
        simp [refund_htlc, hc]
      · unfold timelockExpired; omega
    · apply iff_of_false
      · rintro ⟨w, hw⟩
        simp only [refund_htlc] at hw
        rw [if_neg hc] at hw
        by_cases hd : is_dust (utxo.value - calculate_fee 1 1 20) refund_spk = true
        · rw [if_pos hd] at hw; exact absurd hw (by simp)
        · rw [if_neg hd] at hw
          cases hlock : lockTimeFromHeight current_height with
          | none => rw [hlock] at hw; exact absurd hw (by simp)
          | some lt =>
              rw [hlock] at hw
              cases hwd : h.refund with
              | none => rw [hwd] at hw; exact absurd hw (by simp)
              | some wd =>
                  rw [hwd] at hw
                  dsimp only at hw
                  by_cases hlen : wd.length < 3
                  · rw [if_pos hlen] at hw; exact absurd hw (by simp)
                  · rw [if_neg hlen] at hw; exact absurd hw (by simp)
      · intro hne
        exact hne (by unfold timelockExpired; omega)
  · intro hk hexp h500 hdust
    have hcnot : ¬ ((current_height : Int) <
        (utxo.status.block_height : Int) + h.timelock) := by
      unfold timelockExpired at hexp; omega
    have hlock : lockTimeFromHeight current_height = some current_height := by
      unfold lockTimeFromHeight
      rw [Nat.mod_eq_of_lt (by omega)]
      rw [if_pos h500]
    have hres : refund_htlc h refund_spk (utxo :: rest) current_height =
        .ok { version := 2, lock_time := current_height,
              input := [⟨utxo.txid, utxo.vout, seqEnableLocktimeNoRbf,
                         [.schnorrSig,
                          .script (refund_leaf h.timelock h.redeemer_pubkey),
                          .controlBlock (refund_leaf h.timelock h.redeemer_pubkey)]⟩],
              output := [⟨utxo.value - calculate_fee 1 1 20, refund_spk⟩] } := by
      simp only [refund_htlc]
      rw [if_neg hcnot]
      rw [if_neg (by simp [hdust])]
      rw [hlock, refund_some_of_same_key h hk]
      norm_num
    refine ⟨_, hres, rfl, rfl, ?_⟩
    intro i hi
    rw [List.mem_singleton] at hi
    subst hi
    rfl

/-- C1 witness: a funded 50 000-sat HTLC UTXO of the same-key HTLC,
refunded at height 100 ≥ 0 + 12: success with locktime 100 and one
3-element witness. -/
theorem refund_timelock_characterization_witness :
    sameKeyHtlc.initiator_pubkey = sameKeyHtlc.redeemer_pubkey ∧
    timelockExpired 100 bigUtxo.status.block_height sameKeyHtlc.timelock ∧
    (∃ tx, refund_htlc sameKeyHtlc (.p2wpkh "w") [bigUtxo] 100 = .ok tx ∧
       tx.lock_time = 100 ∧ tx.input.length = 1 ∧
       ∀ i ∈ tx.input, i.witness.length = 3) := by
  refine ⟨rfl, by decide, ?_⟩
  exact (refund_timelock_characterization sameKeyHtlc (.p2wpkh "w") bigUtxo []
    100).2 rfl (by decide) (by decide) (by decide)

/-! ## C3 — witness inspection of the spending transaction -/

theorem analyzeWitness_eq_some_iff (w : List (Option String)) (hl p : String) :
    analyzeWitness w hl = some p ↔
      4 ≤ w.length ∧ w.getD 1 none = some p ∧
      ∃ bs, hexDecode p = some bs ∧ hash_secret bs = hl := by
  unfold analyzeWitness
  by_cases h4 : 4 ≤ w.length
  · rw [if_pos h4]
    cases h1 : w.getD 1 none with
    | none => simp [h4]
    | some s =>
        dsimp only
        cases h2 : hexDecode s with
        | none =>
            dsimp only
            constructor
            · intro hx; exact absurd hx (by simp)
            · rintro ⟨-, hgd, bs, hdec, -⟩
              obtain rfl : s = p := Option.some.inj hgd
              rw [h2] at hdec
              exact absurd hdec (by simp)
        | some bs =>
            dsimp only
            by_cases hh : hash_secret bs = hl
            · rw [if_pos hh]
              constructor
              · intro hx
                obtain rfl : s = p := Option.some.inj hx
                exact ⟨h4, rfl, bs, h2, hh⟩
              · rintro ⟨-, hgd, -⟩
                exact hgd
            · rw [if_neg hh]
              constructor
              · intro hx; exact absurd hx (by simp)
              · rintro ⟨-, hgd, bs', hdec', hh'⟩
                obtain rfl : s = p := Option.some.inj hgd
                rw [h2] at hdec'
                obtain rfl : bs = bs' := Option.some.inj hdec'
                exact absurd hh' hh
  · rw [if_neg h4]
    constructor
    · intro hx; exact absurd hx (by simp)
    · rintro ⟨h4', -⟩; exact absurd h4' h4

theorem scanVin_eq_some (hl : String) (l : List VinEntry) (p : String)
    (hs : scanVin hl l = some p) :
    ∃ inp ∈ l, inputPreimage hl inp = some p := by
  induction l with
  | nil => simp [scanVin] at hs
  | cons inp rest ih =>
      simp only [scanVin] at hs
      cases hip : inputPreimage hl inp with
      | some q =>
          rw [hip] at hs
          dsimp only at hs
          obtain rfl : q = p := Option.some.inj hs
          exact ⟨inp, List.mem_cons_self inp rest, hip⟩
      | none =>
          rw [hip] at hs
          dsimp only at hs
          obtain ⟨i, hi, hp⟩ := ih hs
          exact ⟨i, List.mem_cons_of_mem inp hi, hp⟩

theorem scanVin_isSome_iff (hl : String) (l : List VinEntry) :
    (scanVin hl l).isSome = true ↔
      ∃ inp ∈ l, (inputPreimage hl inp).isSome = true := by
  induction l with
  | nil => simp [scanVin]
  | cons inp rest ih =>
      simp only [scanVin]
      cases hip : inputPreimage hl inp with
      | some q => simp [hip]
      | none => simp [hip, ih]

/-- C3: for an address seen with zero UTXOs and exactly two
transactions, the watcher classifies the spend as Claimed and emits the
preimage exactly when some input of the fetched spending transaction has
a witness stack of at least 4 elements whose element at index 1,
hex-decoded and SHA-256-hashed, equals the HTLC's hashlock; any emitted
preimage is such an index-1 element, and every other witness shape —
shorter witnesses included — is classified Refunded, without erroring. -/
theorem spend_classification (td : TxData) (hashlock : String)
    (cv : ChainView) (st : WatcherState) (o : WatchOrder) (txid : String) :
    ((analyze_spending_transaction td hashlock).isSome = true ↔
      ∃ inp ∈ td.vin, ∃ w, inp.witness = some w ∧ 4 ≤ w.length ∧
        ∃ s bs, w.getD 1 none = some s ∧ hexDecode s = some bs ∧
          hash_secret bs = hashlock)
  ∧ (∀ p, analyze_spending_transaction td hashlock = some p →
      ∃ inp ∈ td.vin, ∃ w, inp.witness = some w ∧ 4 ≤ w.length ∧
        w.getD 1 none = some p ∧
        ∃ bs, hexDecode p = some bs ∧ hash_secret bs = hashlock)
  ∧ (cv.utxos = [] → cv.txCount = 2 → cv.spendingTx = some txid →
     cv.getTx txid = some td → o.hashlock = hashlock →
     (watch_order_htlc cv st o).1 =
       match analyze_spending_transaction td hashlock with
       | some p => [.HtlcClaimed o.id txid p]
       | none => [.HtlcRefunded o.id txid]) := by
  refine ⟨?_, ?_, ?_⟩
  · unfold analyze_spending_transaction
    rw [scanVin_isSome_iff]
    constructor
    · rintro ⟨inp, hmem, hip⟩
      rw [Option.isSome_iff_exists] at hip
      obtain ⟨p, hp⟩ := hip
      unfold inputPreimage at hp
      cases hwit : inp.witness with
      | none => rw [hwit] at hp; exact absurd hp (by simp)
      | some w =>
          rw [hwit] at hp
          dsimp only at hp
          obtain ⟨h4, hgd, bs, hdec, hh⟩ :=
            (analyzeWitness_eq_some_iff w hashlock p).mp hp
          exact ⟨inp, hmem, w, hwit, h4, p, bs, hgd, hdec, hh⟩
    · rintro ⟨inp, hmem, w, hwit, h4, s, bs, hgd, hdec, hh⟩
      refine ⟨inp, hmem, ?_⟩
      rw [Option.isSome_iff_exists]
      refine ⟨s, ?_⟩
      unfold inputPreimage
      rw [hwit]
      dsimp only
      exact (analyzeWitness_eq_some_iff w hashlock s).mpr ⟨h4, hgd, bs, hdec, hh⟩
  · intro p hp
    unfold analyze_spending_transaction at hp
    obtain ⟨inp, hmem, hip⟩ := scanVin_eq_some hashlock td.vin p hp
    unfold inputPreimage at hip
    cases hwit : inp.witness with
    | none => rw [hwit] at hip; exact absurd hip (by simp)
    | some w =>
        rw [hwit] at hip
        dsimp only at hip
        obtain ⟨h4, hgd, bs, hdec, hh⟩ :=
          (analyzeWitness_eq_some_iff w hashlock p).mp hip
        exact ⟨inp, hmem, w, hwit, h4, hgd, bs, hdec, hh⟩
  · intro hu htc hsp hg hhl
    simp only [watch_order_htlc, classifySpend, hu, htc, hsp, hg, hhl]
    norm_num

set_option maxRecDepth 20000 in
/-- C3 witness: a spend whose 4-element witness carries the repo's test
preimage at index 1 is classified Claimed with that preimage. -/
theorem spend_classification_witness :
    claimedView.getTx "spend1" = some claimTxData ∧
    (watch_order_htlc claimedView emptyWatcherState claimWatchOrder).1 =
      [BitcoinEvent.HtlcClaimed "ord3" "spend1" testSecretHex] := by
  refine ⟨rfl, ?_⟩
  have hcls := (spend_classification claimTxData testSecretHashHex claimedView
    emptyWatcherState claimWatchOrder "spend1").2.2 rfl rfl rfl rfl rfl
  rw [hcls]
  have hana : analyze_spending_transaction claimTxData testSecretHashHex =
      some testSecretHex := by decide
  rw [hana]
  rfl

/-! ## C6 — failure isolation within a poll cycle -/

/-- C6 counterexample: in a two-order cycle, the indexer failure for the
first order's address aborts the whole `watch_cycle` with that error —
while the second order, watched on its own against the same chain state,
would have produced a Refunded event.  (The claim promises per-order
isolation.) -/
theorem watch_cycle_abort_on_first_order :
    watch_cycle faultyFetch emptyWatcherState
        [claimWatchOrder, otherWatchOrder] [] [] = .error "indexer timeout" ∧
    (watch_order_htlc refundedView emptyWatcherState otherWatchOrder).1 =
      [BitcoinEvent.HtlcRefunded "ord6" "spend2"] := by
  exact ⟨rfl, rfl⟩

/-- C6 (amended): in the executor, a resolution (`mapper.map`) failure
for one order is logged and skipped, leaving the rest of the batch
processed; but a broadcast failure for one resolved action aborts the
rest of the executor batch, and in the watcher a failure while watching
one order's address aborts the whole `watch_cycle`. -/
theorem error_isolation_characterization :
    (∀ (mapResult : MatchedOrder → Except String HTLCAction)
       (broadcast : Tx → Except String String) (o : MatchedOrder)
       (rest : List MatchedOrder) (e : String),
        mapResult o = .error e →
        process_pending_orders mapResult broadcast (o :: rest) =
          process_pending_orders mapResult broadcast rest)
  ∧ (∀ (mapResult : MatchedOrder → Except String HTLCAction)
       (broadcast : Tx → Except String String) (o : MatchedOrder)
       (rest : List MatchedOrder) (oid : String) (tx : Tx) (e : String),
        mapResult o = .ok (.InitAction oid tx) →
        broadcast tx = .error e →
        process_pending_orders mapResult broadcast (o :: rest) = .error e)
  ∧ (∀ (fetch : String → Except String ChainView) (st : WatcherState)
       (o : WatchOrder) (rest : List WatchOrder)
       (pending funded : List (String × BitcoinHtlcParams)) (e : String),
        fetch (watchOrderAddress o) = .error e →
        watch_cycle fetch st (o :: rest) pending funded = .error e) := by
  refine ⟨?_, ?_, ?_⟩
  · intro mapResult broadcast o rest e hmap
    simp only [process_pending_orders, hmap]
  · intro mapResult broadcast o rest oid tx e hmap hbc
    simp only [process_pending_orders, hmap, hbc]
    rfl
  · intro fetch st o rest pending funded e hf
    simp only [watch_cycle, runWatchOrders, hf]
    rfl

/-- C6 witness: the watcher-side abort applied to the concrete faulty
fetcher and a one-order cycle. -/
theorem error_isolation_characterization_witness :
    faultyFetch (watchOrderAddress claimWatchOrder) = .error "indexer timeout" ∧
    watch_cycle faultyFetch emptyWatcherState [claimWatchOrder] [] [] =
      .error "indexer timeout" := by
  refine ⟨rfl, ?_⟩
  exact error_isolation_characterization.2.2 faultyFetch emptyWatcherState
    claimWatchOrder [] [] [] "indexer timeout" rfl

/-! ## C7 — replaying a poll cycle on unchanged chain state -/

/-- C7 counterexample: for a fulfilled address (zero UTXOs, two
transactions), a second poll against unchanged chain state re-emits the
very same Refunded event — transition events of that shape are *not*
emitted at most once per chain-state change. -/
theorem replay_reemits_refunded :
    (watch_order_htlc refundedView
       (watch_order_htlc refundedView emptyWatcherState claimWatchOrder).2
       claimWatchOrder).1 = [BitcoinEvent.HtlcRefunded "ord3" "spend2"] := by
  rfl

theorem recordBalance_watched (st : WatcherState) (addr : String) (b : Nat) :
    (recordBalance st addr b).watched = insertA st.watched addr b := rfl

theorem watch_order_htlc_watched (cv : ChainView) (st : WatcherState)
    (o : WatchOrder) :
    ((watch_order_htlc cv st o).2).watched =
      insertA st.watched (watchOrderAddress o) ((cv.utxos.map (·.value)).sum) := by
  unfold watch_order_htlc
  by_cases hu : cv.utxos.isEmpty <;>
    by_cases h0 : cv.txCount = 0 <;>
      by_cases h2 : cv.txCount = 2 <;>
        by_cases hw : (lookupA st.initWatched (watchOrderAddress o)).getD false <;>
          simp [hu, h0, h2, hw, recordBalance]

/-- C7 (amended): a second `watch_order_htlc` poll against unchanged
chain state emits no events *except* for the fulfilled
(zero-UTXO, two-transaction) shape, whose Claimed/Refunded event is
re-emitted on every poll; Funded detection is deduplicated through the
recorded balance, and a `watch_htlc_address` replay never emits. -/
theorem replay_quiescence (cv : ChainView) (st : WatcherState) (o : WatchOrder)
    (cv2 : ChainView) (st2 : WatcherState) (id : String)
    (params : BitcoinHtlcParams)
    (hshape : ¬(cv.utxos = [] ∧ cv.txCount = 2)) :
    (watch_order_htlc cv (watch_order_htlc cv st o).2 o).1 = []
  ∧ (watch_htlc_address cv2 (watch_htlc_address cv2 st2 id params).2
      id params).1 = [] := by
  constructor
  · by_cases hu : cv.utxos.isEmpty
    · have h2 : ¬ cv.txCount = 2 := by
        intro hc
        exact hshape ⟨List.isEmpty_iff.mp hu, hc⟩
      unfold watch_order_htlc
      rw [if_pos hu]
      by_cases h0 : cv.txCount = 0
      · rw [if_pos h0]
      · rw [if_neg h0, if_neg h2]
    · have hw : ((watch_order_htlc cv st o).2).watched =
          insertA st.watched (watchOrderAddress o)
            ((cv.utxos.map (·.value)).sum) :=
        watch_order_htlc_watched cv st o
      conv_lhs => rw [watch_order_htlc]
      rw [if_neg hu]
      dsimp only
      unfold fundingEvents
      rw [hw, lookupA_insertA_self]
      simp
  · unfold watch_htlc_address
    dsimp only
    rw [lookupA_insertA_self]
    simp

/-- C7 witness: replaying a funded view (one UTXO, shape excluded from
the fulfilled branch) emits nothing the second time, and neither does a
`watch_htlc_address` replay. -/
theorem replay_quiescence_witness :
    ¬(fundedView.utxos = [] ∧ fundedView.txCount = 2) ∧
    (watch_order_htlc fundedView
       (watch_order_htlc fundedView emptyWatcherState claimWatchOrder).2
       claimWatchOrder).1 = [] ∧
    (watch_htlc_address fundedView
       (watch_htlc_address fundedView emptyWatcherState "idp" pendingParams).2
       "idp" pendingParams).1 = [] := by
  have h := replay_quiescence fundedView emptyWatcherState claimWatchOrder
    fundedView emptyWatcherState "idp" pendingParams (by decide)
  exact ⟨by decide, h.1, h.2⟩

end AvaxBridge
